import Mathlib

/-!
Verification of the Methodology Retrieval & Synchronization Engine
(`src/rag/github-sync.ts`): a shallow embedding of the sync engine's
version comparator, methodology validator, per-file sync step and
sync-run loop, together with theorems settling the specified properties.

Modelling conventions:
* JavaScript numbers reached by the version comparator are either NaN or
  integers (version components are digit runs; double-precision rounding of
  components beyond 2^53 is abstracted away, as is every numeric literal form
  a dot-free component cannot take in the claims below).
* Strings are processed through their underlying character lists so that all
  definitions reduce in the kernel.
* File contents are abstracted by their `JSON.parse` outcome: a fetched file
  either fails at the API, lacks file content, fails to parse, or parses to a
  `JSValue`; the local store maps file basenames to the parsed value the
  engine wrote (the engine only ever writes `JSON.stringify` of such values).
-/

/-- A JavaScript number as seen by `compareVersions`: NaN, an infinity, or
an integer-valued double. `Number(part)` on a dot-free version component
yields NaN or an integer-valued double (decimal points cannot survive the
split on `"."`, and rounding an integer to binary64 yields an integer or an
infinity). -/
inductive JSNum where
  | nan : JSNum
  | negInf : JSNum
  | inf : JSNum
  | int : Int → JSNum

/-- JavaScript `>` on possibly-missing numbers: `undefined` (here `none`) and
`NaN` compare as neither greater nor less, so every comparison involving
them is `false`; the infinities sit below and above every integer; two
integers compare as integers. -/
def jsGT : Option JSNum → Option JSNum → Bool
  | some (.int a), some (.int b) => decide (a > b)
  | some .inf, some (.int _) => true
  | some .inf, some .negInf => true
  | some (.int _), some .negInf => true
  | _, _ => false

/-- JavaScript `<` on possibly-missing numbers, mirroring `jsGT`. -/
def jsLT : Option JSNum → Option JSNum → Bool
  | some (.int a), some (.int b) => decide (a < b)
  | some (.int _), some .inf => true
  | some .negInf, some .inf => true
  | some .negInf, some (.int _) => true
  | _, _ => false

/-- Split a character list at every occurrence of `c`, keeping empty pieces:
the semantics of JavaScript `String.prototype.split` with a one-character
separator (`"".split` gives `[""]`, a trailing separator gives a final `""`). -/
def splitOnChar (c : Char) : List Char → List (List Char)
  | [] => [[]]
  | x :: rest =>
    match splitOnChar c rest with
    | [] => if x = c then [[], []] else [[x]]
    | g :: gs => if x = c then [] :: g :: gs else (x :: g) :: gs

/-- JavaScript `v.split('.')` on a string, via its character list. -/
def jsSplitDot (s : String) : List String :=
  (splitOnChar '.' s.data).map String.mk

/-- Accumulating decimal parse of a digit run; `none` as soon as a non-digit
character appears. -/
def parseDigitsAux : Nat → List Char → Option Nat
  | acc, [] => some acc
  | acc, c :: rest =>
    if c.isDigit then parseDigitsAux (acc * 10 + (c.toNat - 48)) rest
    else none

/-- Parse a nonempty all-digit character list as a natural number. -/
def parseDigits (cs : List Char) : Option Nat :=
  match cs with
  | [] => none
  | _ => parseDigitsAux 0 cs

/-- Fuel-driven binary logarithm (the fuel only bounds the number of
halvings, so `natLog2 n` runs in logarithmic depth and reduces in the
kernel). -/
def natLog2Aux : Nat → Nat → Nat
  | 0, _ => 0
  | fuel + 1, n => if n ≥ 2 then natLog2Aux fuel (n / 2) + 1 else 0

/-- Binary logarithm of a natural number (`natLog2 n = e` with
`2 ^ e ≤ n < 2 ^ (e + 1)` for positive `n`). -/
def natLog2 (n : Nat) : Nat := natLog2Aux n n

/-- Round a natural number to the nearest IEEE binary64 value, ties to even
— what `Number` produces for an integer digit run: exact below `2 ^ 53`;
above, the nearest multiple of the power-of-two unit in the last place; at
or beyond the binary64 overflow threshold, Infinity. The result is always
an integer value or Infinity. -/
def roundNatToDouble (n : Nat) : JSNum :=
  if n < 2 ^ 53 then .int n
  else
    let e := natLog2 n
    let ulp := 2 ^ (e - 52)
    let q := n / ulp
    let r := n % ulp
    let rounded :=
      if 2 * r < ulp then q * ulp
      else if 2 * r > ulp then (q + 1) * ulp
      else if q % 2 = 0 then q * ulp else (q + 1) * ulp
    if rounded ≥ 2 ^ 1024 then .inf else .int rounded

/-- JavaScript `Number(s)` restricted to the shapes a dot-free component can
take in this development: a nonempty digit run is its value rounded to
binary64; otherwise the string is trimmed, the empty string is `0`, an
optional sign before a digit run gives a signed rounded value, and
everything else (hexadecimal, exponent and decimal forms, `Infinity`) is
conservatively NaN — no claim below depends on those forms. -/
def jsStringToNumber (s : String) : JSNum :=
  match parseDigits s.data with
  | some n => roundNatToDouble n
  | none =>
    let t := (((s.data.dropWhile Char.isWhitespace).reverse.dropWhile
        Char.isWhitespace).reverse)
    match t with
    | [] => .int 0
    | '-' :: rest =>
      match parseDigits rest with
      | some n =>
        match roundNatToDouble n with
        | .int k => .int (-k)
        | _ => .negInf
      | none => .nan
    | '+' :: rest =>
      match parseDigits rest with
      | some n => roundNatToDouble n
      | none => .nan
    | _ => .nan

/-- The engine's `compareVersions(v1, v2)`: split both strings on `.`, map
`Number` over the parts, and compare the first three components left to
right, returning `1` on the first strictly greater component, `-1` on the
first strictly smaller one, else `0` (the source's `for` loop over
`i = 0, 1, 2`, unrolled). -/
def compareVersions (v1 v2 : String) : Int :=
  let parts1 := (jsSplitDot v1).map jsStringToNumber
  let parts2 := (jsSplitDot v2).map jsStringToNumber
  if jsGT parts1[0]? parts2[0]? then 1
  else if jsLT parts1[0]? parts2[0]? then -1
  else if jsGT parts1[1]? parts2[1]? then 1
  else if jsLT parts1[1]? parts2[1]? then -1
  else if jsGT parts1[2]? parts2[2]? then 1
  else if jsLT parts1[2]? parts2[2]? then -1
  else 0

/-- The anchored pattern `\d+\.\d+\.\d+` characterised through the split: a
string matches exactly when splitting on `.` yields three nonempty digit
runs, and the three components are returned. -/
def semverParts (s : String) : Option (Nat × Nat × Nat) :=
  match jsSplitDot s with
  | [a, b, c] =>
    match parseDigits a.data, parseDigits b.data, parseDigits c.data with
    | some x, some y, some z => some (x, y, z)
    | _, _, _ => none
  | _ => none

/-- The three exact pattern components after the binary64 rounding `Number`
applies to each. -/
def roundTriple : Nat × Nat × Nat → JSNum × JSNum × JSNum
  | (x, y, z) => (roundNatToDouble x, roundNatToDouble y, roundNatToDouble z)

/-- The comparator contract over already-rounded components: compare the
three binary64 components left to right, the first difference deciding;
used to check the source comparator against its specified ordering. -/
def specCompareD (a b : JSNum × JSNum × JSNum) : Int :=
  if jsGT (some a.1) (some b.1) then 1
  else if jsLT (some a.1) (some b.1) then -1
  else if jsGT (some a.2.1) (some b.2.1) then 1
  else if jsLT (some a.2.1) (some b.2.1) then -1
  else if jsGT (some a.2.2) (some b.2.2) then 1
  else if jsLT (some a.2.2) (some b.2.2) then -1
  else 0

/-- An untyped JavaScript value, as produced by `JSON.parse` at the trust
boundary: the candidate methodology records and everything inside them.
Numbers are abstracted as integers (no claim below inspects a fractional
field value). -/
inductive JSValue where
  | null : JSValue
  | undefined : JSValue
  | bool : Bool → JSValue
  | num : Int → JSValue
  | str : String → JSValue
  | arr : List JSValue → JSValue
  | obj : List (String × JSValue) → JSValue

/-- JavaScript truthiness, as used by every `!x` guard in the validator:
`null`, `undefined`, `false`, `0` and `""` are falsy; arrays and objects
(including the empty ones) are truthy. -/
def truthy : JSValue → Bool
  | .null => false
  | .undefined => false
  | .bool b => b
  | .num n => decide (n ≠ 0)
  | .str s => decide (s ≠ "")
  | .arr _ => true
  | .obj _ => true

/-- JavaScript property access `v.k` as the validator and sync step use it:
the named field of an object (or `undefined` when absent), `undefined` on any
primitive. In JavaScript, access on `null`/`undefined` itself throws a
TypeError; the validator only dereferences values it has already required to
be truthy, except elements of `stages` — a literal `null` stage would throw
a TypeError rather than produce the stage-rule message, a case no claim
below exercises. -/
def getField : JSValue → String → JSValue
  | .obj fields, k => (fields.lookup k).getD .undefined
  | _, _ => .undefined

/-- The mandatory top-level fields, in the order the source checks them. -/
def requiredFields : List String :=
  ["id", "name", "version", "author", "category", "description", "stages"]

/-- The per-stage rule of the validator: `name`, `description` and `guidance`
must all be truthy. -/
def stageOk (stage : JSValue) : Bool :=
  truthy (getField stage "name") && truthy (getField stage "description") &&
    truthy (getField stage "guidance")

/-- Whether a value is `null` or `undefined` (the bases on which JavaScript
property access throws). -/
def isNullish : JSValue → Bool
  | .null => true
  | .undefined => true
  | _ => false

/-- JavaScript property access `v[k]` where the base may be anything:
`null` and `undefined` bases throw a TypeError (message as Node renders
it); every other base yields the total `getField`. -/
def getFieldE : JSValue → String → Except String JSValue
  | .null, k => .error ("Cannot read properties of null (reading '" ++ k ++ "')")
  | .undefined, k =>
    .error ("Cannot read properties of undefined (reading '" ++ k ++ "')")
  | v, k => .ok (getField v k)

mutual
/-- JavaScript `String(v)`: the coercion `RegExp.test` applies to a
non-string argument. Numbers are rendered in decimal (faithful for the
integer abstraction used here), arrays join their coerced elements with
commas (`Array.prototype.toString`), objects render as "[object Object]". -/
def jsToString : JSValue → String
  | .null => "null"
  | .undefined => "undefined"
  | .bool b => cond b "true" "false"
  | .num n => toString n
  | .str s => s
  | .arr xs => jsToStringElems xs
  | .obj _ => "[object Object]"

/-- `Array.prototype.join(",")` over coerced elements. -/
def jsToStringElems : List JSValue → String
  | [] => ""
  | [x] => jsToStringElem x
  | x :: y :: rest => jsToStringElem x ++ "," ++ jsToStringElems (y :: rest)

/-- Element coercion inside a join: `null` and `undefined` become the empty
string. -/
def jsToStringElem : JSValue → String
  | .null => ""
  | .undefined => ""
  | v => jsToString v
end

/-- The source's `versionPattern.test(v)`: `RegExp.test` coerces its
argument through `String(v)` and applies the anchored three-part pattern.
The string case is kept as its own arm (where `String` is the identity) so
that the common path does not depend on the recursive coercion. -/
def versionPatternTest (v : JSValue) : Bool :=
  match v with
  | .str s => (semverParts s).isSome
  | other => (semverParts (jsToString other)).isSome

/-- The `for (const field of required)` loop of the validator: property
access on a `null`/`undefined` candidate throws a TypeError at the first
field; otherwise a falsy field value throws `Missing required field`. -/
def validateRequired (m : JSValue) : List String → Except String Unit
  | [] => .ok ()
  | f :: rest =>
    match getFieldE m f with
    | .error e => .error e
    | .ok v =>
      if truthy v then validateRequired m rest
      else .error ("Missing required field: " ++ f)

/-- The stage loop of the validator: `!stage.name` throws a TypeError for a
`null`/`undefined` stage element (short-circuiting before the other two
accesses); otherwise a falsy `name`, `description` or `guidance` rejects
with the stage rule's message. -/
def validateStages : List JSValue → Except String Unit
  | [] => .ok ()
  | stage :: rest =>
    match getFieldE stage "name" with
    | .error e => .error e
    | .ok nm =>
      if !truthy nm || !truthy (getField stage "description") ||
          !truthy (getField stage "guidance") then
        .error "Each stage must have name, description, and guidance"
      else validateStages rest

/-- The engine's `validateMethodology`: five checks in source order, throwing
(here: returning `.error`) the first failing check's message. The accesses
`methodology.stages`, `methodology.author.name` and `methodology.version`
use the total `getField`: they are only reached after the required-field
loop has established that the candidate (and its `author`) are truthy, hence
not `null`/`undefined`. The version check applies the pattern to the
JavaScript `String()` coercion of the version value. -/
def validateMethodology (m : JSValue) : Except String Unit :=
  match validateRequired m requiredFields with
  | .error e => .error e
  | .ok _ =>
    match getField m "stages" with
    | .arr stages =>
      if stages.isEmpty then .error "Methodology must have at least one stage"
      else
        match validateStages stages with
        | .error e => .error e
        | .ok _ =>
          if !truthy (getField (getField m "author") "name") ||
              !truthy (getField (getField m "author") "email") then
            .error "Author must have name and email"
          else
            if versionPatternTest (getField m "version") then .ok ()
            else .error "Version must follow semver format (e.g., 1.0.0)"
    | _ => .error "Methodology must have at least one stage"

/-- Specification check (1): all mandatory top-level fields present and
non-empty. -/
def checkRequired (m : JSValue) : Bool :=
  requiredFields.all (fun f => truthy (getField m f))

/-- Specification check (2): `stages` is a nonempty ordered sequence. -/
def checkStagesSeq (m : JSValue) : Bool :=
  match getField m "stages" with
  | .arr stages => !stages.isEmpty
  | _ => false

/-- Specification check (3): every stage has non-empty `name`, `description`
and guidance content. -/
def checkStageFields (m : JSValue) : Bool :=
  match getField m "stages" with
  | .arr stages => stages.all stageOk
  | _ => false

/-- Specification check (4): `author` has both a name and a contact
identifier. -/
def checkAuthor (m : JSValue) : Bool :=
  truthy (getField (getField m "author") "name") &&
    truthy (getField (getField m "author") "email")

/-- Specification check (5) as the code implements it: the `String()`
coercion of the version value matches the three-part numeric pattern. -/
def checkVersionFormat (m : JSValue) : Bool :=
  versionPatternTest (getField m "version")

/-- The claim's reading of check (5): the version is itself a string
matching the pattern (the specification says non-matching strings are
"never silently coerced"). -/
def checkVersionStrict (m : JSValue) : Bool :=
  match getField m "version" with
  | .str v => (semverParts v).isSome
  | _ => false

/-- Whether every stage element can be dereferenced without a TypeError
(no `null`/`undefined` elements). -/
def checkStagesDeref (m : JSValue) : Bool :=
  match getField m "stages" with
  | .arr stages => stages.all (fun st => !isNullish st)
  | _ => false

/-- A stage descriptor with all three mandatory fields. -/
def exStage : JSValue :=
  .obj [("name", .str "open coding"), ("description", .str "code line by line"),
    ("guidance", .str "stay close to the data"), ("order", .num 1)]

/-- An author with both a name and a contact identifier. -/
def exAuthor : JSValue :=
  .obj [("name", .str "K. Charmaz"), ("email", .str "kc@example.org")]

/-- A fully valid candidate record. -/
def exGood : JSValue :=
  .obj [("id", .str "gt-charmaz"), ("name", .str "Grounded Theory"),
    ("version", .str "1.0.0"), ("author", exAuthor),
    ("category", .str "theory-building"),
    ("description", .str "constructivist grounded theory"),
    ("stages", .arr [exStage])]

/-- A candidate missing `stages`. -/
def exNoStages : JSValue :=
  .obj [("id", .str "gt-charmaz"), ("name", .str "Grounded Theory"),
    ("version", .str "1.0.0"), ("author", exAuthor),
    ("category", .str "theory-building"),
    ("description", .str "constructivist grounded theory")]

/-- A candidate whose only stage lacks `description`. -/
def exStageNoDescription : JSValue :=
  .obj [("id", .str "gt-charmaz"), ("name", .str "Grounded Theory"),
    ("version", .str "1.0.0"), ("author", exAuthor),
    ("category", .str "theory-building"),
    ("description", .str "constructivist grounded theory"),
    ("stages", .arr [.obj [("name", .str "open coding"),
      ("guidance", .str "stay close to the data")]])]

/-- A candidate whose author lacks a contact identifier. -/
def exAuthorNoEmail : JSValue :=
  .obj [("id", .str "gt-charmaz"), ("name", .str "Grounded Theory"),
    ("version", .str "1.0.0"), ("author", .obj [("name", .str "K. Charmaz")]),
    ("category", .str "theory-building"),
    ("description", .str "constructivist grounded theory"),
    ("stages", .arr [exStage])]

/-- A candidate with the two-part version "1.0". -/
def exTwoPartVersion : JSValue :=
  .obj [("id", .str "gt-charmaz"), ("name", .str "Grounded Theory"),
    ("version", .str "1.0"), ("author", exAuthor),
    ("category", .str "theory-building"),
    ("description", .str "constructivist grounded theory"),
    ("stages", .arr [exStage])]

/-- A candidate whose version is the single-element array ["1.0.0"] — not a
string, but its `String()` coercion is "1.0.0". -/
def exArrVersion : JSValue :=
  .obj [("id", .str "gt-charmaz"), ("name", .str "Grounded Theory"),
    ("version", .arr [.str "1.0.0"]), ("author", exAuthor),
    ("category", .str "theory-building"),
    ("description", .str "constructivist grounded theory"),
    ("stages", .arr [exStage])]

/-- A candidate whose only stage element is `null`. -/
def exNullStage : JSValue :=
  .obj [("id", .str "gt-charmaz"), ("name", .str "Grounded Theory"),
    ("version", .str "1.0.0"), ("author", exAuthor),
    ("category", .str "theory-building"),
    ("description", .str "constructivist grounded theory"),
    ("stages", .arr [.null])]

/-- JavaScript `s.endsWith(suffix)`, via character lists. -/
def strEndsWith (s suffix : String) : Bool :=
  List.isSuffixOf suffix.data s.data

/-- One entry of the remote directory listing (the GitHub contents API):
its `type` ("file" or "dir"), `name`, and repository `path`. -/
structure RemoteEntry where
  type : String
  name : String
  path : String

/-- Outcome of fetching one file's content from the remote repository.
`err` is a rejected API call (not-found, auth failure, rate limit) carrying
the error's message; `nonFile` is a response without file content (the
source's `'content' in fileData && fileData.type === 'file'` guard fails and
the file is skipped silently); `file p` is decoded content abstracted by its
`JSON.parse` outcome — `none` when parsing throws, `some v` otherwise. -/
inductive FetchResult where
  | err : String → FetchResult
  | nonFile : FetchResult
  | file : Option JSValue → FetchResult

/-- The local methodology directory: file basename mapped to the parsed
record stored in that file. The source keys by
`path.join(localDir, path.basename(filePath))`; the constant directory
prefix is dropped. Engine writes are `JSON.stringify` of a parsed value, so
file contents are modelled already parsed. -/
abbrev LocalStore := List (String × JSValue)

/-- Node's `path.basename`: the part after the last `/`. -/
def pathBasename (p : String) : String :=
  ((splitOnChar '/' p.data).map String.mk).getLastD ""

/-- Replace-or-append write of one record under a basename: the effect of
`fs.writeFileSync` on the directory map. -/
def storeWrite : LocalStore → String → JSValue → LocalStore
  | [], k, v => [(k, v)]
  | (k', v') :: rest, k, v =>
    if k' = k then (k, v) :: rest else (k', v') :: storeWrite rest k v

/-- The engine's `syncMethodologyFile`: fetch the file; without file content
return silently; parse (throwing `Invalid JSON format` on failure); validate
(propagating the validation error); then the version-gated write keyed by
the file's basename — with an existing local file, skip unless the
candidate's version is strictly greater, else write the full candidate and
push its `id` onto `updated`; with no local file, write and push onto
`added`. A non-string version on either side of the comparison makes
`.split` throw a TypeError (reachable for the stored record, and for the
candidate too: validation only constrains the String() coercion of its
version). Thrown errors are the `.error` results. -/
def syncMethodologyFile (fetch : String → FetchResult) (store : LocalStore)
    (filePath : String) (added updated : List JSValue) :
    Except String (LocalStore × List JSValue × List JSValue) :=
  match fetch filePath with
  | .err msg => .error msg
  | .nonFile => .ok (store, added, updated)
  | .file none => .error "Invalid JSON format"
  | .file (some methodology) =>
    match validateMethodology methodology with
    | .error e => .error e
    | .ok _ =>
      let localPath := pathBasename filePath
      match store.lookup localPath with
      | some localMethodology =>
        match getField methodology "version", getField localMethodology "version" with
        | .str v, .str localV =>
          if compareVersions v localV ≤ 0 then .ok (store, added, updated)
          else .ok (storeWrite store localPath methodology, added,
            updated ++ [getField methodology "id"])
        | _, _ => .error "TypeError: version.split is not a function"
      | none =>
        .ok (storeWrite store localPath methodology,
          added ++ [getField methodology "id"], updated)

/-- Accumulated state of one sync run: the local store, the run's `added`,
`updated` and `errors` lists, and an instrumentation log of the paths for
which a content fetch was issued (the fetch is the first statement of
`syncMethodologyFile`, so every eligible file contributes its path exactly
once, whatever the outcome). -/
structure LoopState where
  store : LocalStore
  added : List JSValue
  updated : List JSValue
  errors : List String
  fetched : List String

/-- The per-entry guard of the sync loop: only entries of type "file" whose
name ends with ".json" are processed. -/
def eligible (e : RemoteEntry) : Bool :=
  e.type == "file" && strEndsWith e.name ".json"

/-- The `for (const file of contents)` loop of `syncFromGitHub`: eligible
files go through `syncMethodologyFile`; a thrown error is pushed onto
`errors` as "name: message" and the loop continues; every other entry is
skipped silently. -/
def syncLoop (fetch : String → FetchResult) :
    List RemoteEntry → LoopState → LoopState
  | [], ls => ls
  | e :: rest, ls =>
    if eligible e then
      match syncMethodologyFile fetch ls.store e.path ls.added ls.updated with
      | .ok (store', added', updated') =>
        syncLoop fetch rest
          { store := store', added := added', updated := updated',
              errors := ls.errors, fetched := ls.fetched ++ [e.path] }
      | .error msg =>
        syncLoop fetch rest
          { ls with
              errors := ls.errors ++ [e.name ++ ": " ++ msg],
              fetched := ls.fetched ++ [e.path] }
    else
      syncLoop fetch rest ls

/-- The remote directory listing for the configured path: the listing call
may reject (`err` with the error's message), return a non-array (`notDir`),
or return the entries. -/
inductive Listing where
  | err : String → Listing
  | notDir : Listing
  | dir : List RemoteEntry → Listing

/-- The engine's `syncFromGitHub`: on a successful directory listing the
file loop runs to completion and the tri-partite outcome is returned; a
listing failure, or a non-array listing, reaches the outer catch, which
rethrows `Failed to sync from GitHub: ...` to the caller. -/
def syncFromGitHub (listing : Listing) (fetch : String → FetchResult)
    (store : LocalStore) : Except String LoopState :=
  match listing with
  | .err msg => .error ("Failed to sync from GitHub: " ++ msg)
  | .notDir =>
    .error "Failed to sync from GitHub: Methodologies directory not found or not a directory"
  | .dir entries =>
    .ok (syncLoop fetch entries ⟨store, [], [], [], []⟩)

/-- The basenames a run's eligible entries are keyed by. -/
def eligibleBasenames (entries : List RemoteEntry) : List String :=
  (entries.filter eligible).map (fun e => pathBasename e.path)

/-- The specified per-file outcome for an eligible candidate whose fetch,
parse and validation succeed, keyed — as the source is — by the file's
basename: no local file with that basename means persist and record in
`added`; an existing file means compare versions and either skip (candidate
not strictly greater; nothing changes) or fully replace that file's record
and record the candidate's id in `updated`; a version that is not a string
on either side makes the comparison throw, recorded as a per-file error. -/
def specFileOutcome (m : JSValue) (name path : String) (ls : LoopState) : LoopState :=
  match ls.store.lookup (pathBasename path) with
  | some localM =>
    match getField m "version", getField localM "version" with
    | .str v, .str localV =>
      if compareVersions v localV ≤ 0 then
        { ls with fetched := ls.fetched ++ [path] }
      else
        { ls with
            store := storeWrite ls.store (pathBasename path) m,
            updated := ls.updated ++ [getField m "id"],
            fetched := ls.fetched ++ [path] }
    | _, _ =>
      { ls with
          errors := ls.errors ++
            [name ++ ": " ++ "TypeError: version.split is not a function"],
          fetched := ls.fetched ++ [path] }
  | none =>
    { ls with
        store := storeWrite ls.store (pathBasename path) m,
        added := ls.added ++ [getField m "id"],
        fetched := ls.fetched ++ [path] }

/-- The mutable state of the `GitHubSync` class: `lastSync` and `syncTimer`
are its only mutable fields; there is no idle/running run-state field. -/
structure GitHubSyncState where
  lastSync : Option Nat
  syncTimer : Option Nat

/-- Effect of one `forceSync()` call (or timer fire) on the number of sync
runs in flight: the body is an unconditional `await this.syncFromGitHub()`
and `syncFromGitHub` begins its work unconditionally, consulting no field of
the state, so every trigger starts one more run — a trigger is never ignored
and never queued. -/
def triggerSyncStep (s : GitHubSyncState) (inFlight : Nat) : Nat :=
  inFlight + 1

/-- A valid candidate record with id "x" and version "1.0.0". -/
def exCandidateLowV : JSValue :=
  .obj [("id", .str "x"), ("name", .str "Method X"),
    ("version", .str "1.0.0"), ("author", exAuthor),
    ("category", .str "custom"), ("description", .str "a method"),
    ("stages", .arr [exStage])]

/-- A stored record with the same id "x" but version "9.9.9". -/
def exStoredHighV : JSValue :=
  .obj [("id", .str "x"), ("name", .str "Method X"),
    ("version", .str "9.9.9"), ("author", exAuthor),
    ("category", .str "custom"), ("description", .str "a method"),
    ("stages", .arr [exStage])]

/-- A remote whose only file "a.json" holds `exCandidateLowV`; every other
path rejects with "Not Found". -/
def fetchA (p : String) : FetchResult :=
  if p = "a.json" then .file (some exCandidateLowV) else .err "Not Found"

/-- The directory entry for "a.json". -/
def entryA : RemoteEntry := ⟨"file", "a.json", "a.json"⟩

/-- A remote whose only file "methodologies/good.json" holds `exGood`. -/
def fetchGood (p : String) : FetchResult :=
  if p = "methodologies/good.json" then .file (some exGood) else .err "Not Found"

/-- The directory entry for "good.json". -/
def entryGood : RemoteEntry := ⟨"file", "good.json", "methodologies/good.json"⟩

theorem jsGT_self (x : Option JSNum) : jsGT x x = false := by
  rcases x with _ | (_ | _ | _ | a) <;> simp [jsGT]

theorem jsLT_self (x : Option JSNum) : jsLT x x = false := by
  rcases x with _ | (_ | _ | _ | a) <;> simp [jsLT]

theorem compareVersions_self (v : String) : compareVersions v v = 0 := by
  unfold compareVersions
  simp [jsGT_self, jsLT_self]

theorem jsStringToNumber_digits {s : String} {n : Nat}
    (h : parseDigits s.data = some n) :
    jsStringToNumber s = roundNatToDouble n := by
  unfold jsStringToNumber
  rw [h]

theorem jsLT_eq_gt_swap (x y : Option JSNum) : jsLT x y = jsGT y x := by
  rcases x with _ | (_ | _ | _ | a) <;> rcases y with _ | (_ | _ | _ | b) <;>
    simp [jsGT, jsLT]

theorem jsGT_asymm (x y : Option JSNum) (h : jsGT x y = true) :
    jsGT y x = false := by
  rcases x with _ | (_ | _ | _ | a) <;> rcases y with _ | (_ | _ | _ | b) <;>
    simp_all [jsGT] <;> omega

set_option maxHeartbeats 1000000 in
theorem jsGT_trans {x y z : Option JSNum} (h1 : jsGT x y = true)
    (h2 : jsGT y z = true) : jsGT x z = true := by
  rcases x with _ | (_ | _ | _ | a) <;> rcases y with _ | (_ | _ | _ | b) <;>
    rcases z with _ | (_ | _ | _ | c) <;> simp_all [jsGT] <;> omega

theorem jsGT_connex {x y : JSNum} (hx : x ≠ .nan) (hy : y ≠ .nan)
    (h1 : jsGT (some x) (some y) = false) (h2 : jsGT (some y) (some x) = false) :
    x = y := by
  cases x <;> cases y <;> simp_all [jsGT] <;> omega

theorem roundNatToDouble_ne_nan (n : Nat) : roundNatToDouble n ≠ .nan := by
  unfold roundNatToDouble
  dsimp only
  split_ifs <;> simp

theorem specCompareD_neg (a b : JSNum × JSNum × JSNum) :
    specCompareD a b = -specCompareD b a := by
  unfold specCompareD
  simp only [jsLT_eq_gt_swap]
  by_cases g1 : jsGT (some a.1) (some b.1) = true
  · rw [if_pos g1, if_neg (by simp [jsGT_asymm _ _ g1]), if_pos g1]
    norm_num
  · by_cases g1' : jsGT (some b.1) (some a.1) = true
    · rw [if_neg g1, if_pos g1', if_pos g1']
    · rw [if_neg g1, if_neg g1', if_neg g1', if_neg g1]
      by_cases g2 : jsGT (some a.2.1) (some b.2.1) = true
      · rw [if_pos g2, if_neg (by simp [jsGT_asymm _ _ g2]), if_pos g2]
        norm_num
      · by_cases g2' : jsGT (some b.2.1) (some a.2.1) = true
        · rw [if_neg g2, if_pos g2', if_pos g2']
        · rw [if_neg g2, if_neg g2', if_neg g2', if_neg g2]
          by_cases g3 : jsGT (some a.2.2) (some b.2.2) = true
          · rw [if_pos g3, if_neg (by simp [jsGT_asymm _ _ g3]), if_pos g3]
            norm_num
          · by_cases g3' : jsGT (some b.2.2) (some a.2.2) = true
            · rw [if_neg g3, if_pos g3', if_pos g3']
            · rw [if_neg g3, if_neg g3', if_neg g3', if_neg g3]
              norm_num

theorem specCompareD_pos_iff {a b : JSNum × JSNum × JSNum}
    (ha1 : a.1 ≠ .nan) (ha2 : a.2.1 ≠ .nan) (ha3 : a.2.2 ≠ .nan)
    (hb1 : b.1 ≠ .nan) (hb2 : b.2.1 ≠ .nan) (hb3 : b.2.2 ≠ .nan) :
    specCompareD a b > 0 ↔
      (jsGT (some a.1) (some b.1) = true ∨
        (a.1 = b.1 ∧ (jsGT (some a.2.1) (some b.2.1) = true ∨
          (a.2.1 = b.2.1 ∧ jsGT (some a.2.2) (some b.2.2) = true)))) := by
  unfold specCompareD
  simp only [jsLT_eq_gt_swap]
  by_cases g1 : jsGT (some a.1) (some b.1) = true
  · rw [if_pos g1]
    simp [g1]
  · by_cases g1' : jsGT (some b.1) (some a.1) = true
    · rw [if_neg g1, if_pos g1']
      have hne : a.1 ≠ b.1 := by
        intro he
        rw [he] at g1'
        rw [jsGT_self] at g1'
        simp at g1'
      constructor
      · intro h
        norm_num at h
      · rintro (h | ⟨he, -⟩)
        · exact absurd h g1
        · exact absurd he hne
    · have e1 : a.1 = b.1 :=
        jsGT_connex ha1 hb1 (by simpa using g1) (by simpa using g1')
      rw [if_neg g1, if_neg g1']
      by_cases g2 : jsGT (some a.2.1) (some b.2.1) = true
      · rw [if_pos g2]
        simp [e1, g2]
      · by_cases g2' : jsGT (some b.2.1) (some a.2.1) = true
        · rw [if_neg g2, if_pos g2']
          have hne2 : a.2.1 ≠ b.2.1 := by
            intro he
            rw [he] at g2'
            rw [jsGT_self] at g2'
            simp at g2'
          constructor
          · intro h
            norm_num at h
          · rintro (h | ⟨-, h | ⟨he2, -⟩⟩)
            · exact absurd h g1
            · exact absurd h g2
            · exact absurd he2 hne2
        · have e2 : a.2.1 = b.2.1 :=
            jsGT_connex ha2 hb2 (by simpa using g2) (by simpa using g2')
          rw [if_neg g2, if_neg g2']
          by_cases g3 : jsGT (some a.2.2) (some b.2.2) = true
          · rw [if_pos g3]
            simp [e1, e2, g3]
          · by_cases g3' : jsGT (some b.2.2) (some a.2.2) = true
            · rw [if_neg g3, if_pos g3']
              constructor
              · intro h
                norm_num at h
              · rintro (h | ⟨-, h | ⟨-, h⟩⟩)
                · exact absurd h g1
                · exact absurd h g2
                · exact absurd h g3
            · rw [if_neg g3, if_neg g3']
              constructor
              · intro h
                norm_num at h
              · rintro (h | ⟨-, h | ⟨-, h⟩⟩)
                · exact absurd h g1
                · exact absurd h g2
                · exact absurd h g3

theorem specCompareD_trans_pos {a b c : JSNum × JSNum × JSNum}
    (ha1 : a.1 ≠ .nan) (ha2 : a.2.1 ≠ .nan) (ha3 : a.2.2 ≠ .nan)
    (hb1 : b.1 ≠ .nan) (hb2 : b.2.1 ≠ .nan) (hb3 : b.2.2 ≠ .nan)
    (hc1 : c.1 ≠ .nan) (hc2 : c.2.1 ≠ .nan) (hc3 : c.2.2 ≠ .nan)
    (h1 : specCompareD a b > 0) (h2 : specCompareD b c > 0) :
    specCompareD a c > 0 := by
  rw [specCompareD_pos_iff ha1 ha2 ha3 hb1 hb2 hb3] at h1
  rw [specCompareD_pos_iff hb1 hb2 hb3 hc1 hc2 hc3] at h2
  rw [specCompareD_pos_iff ha1 ha2 ha3 hc1 hc2 hc3]
  rcases h1 with h1 | ⟨e1, h1 | ⟨e2, h1⟩⟩ <;> rcases h2 with h2 | ⟨f1, h2 | ⟨f2, h2⟩⟩
  · exact Or.inl (jsGT_trans h1 h2)
  · rw [← f1]
    exact Or.inl h1
  · rw [← f1]
    exact Or.inl h1
  · rw [e1]
    exact Or.inl h2
  · exact Or.inr ⟨e1.trans f1, Or.inl (jsGT_trans h1 h2)⟩
  · refine Or.inr ⟨e1.trans f1, Or.inl ?_⟩
    rw [← f2]
    exact h1
  · rw [e1]
    exact Or.inl h2
  · refine Or.inr ⟨e1.trans f1, Or.inl ?_⟩
    rw [e2]
    exact h2
  · exact Or.inr ⟨e1.trans f1, Or.inr ⟨e2.trans f2, jsGT_trans h1 h2⟩⟩

theorem specCompareD_eq_zero_iff {a b : JSNum × JSNum × JSNum}
    (ha1 : a.1 ≠ .nan) (ha2 : a.2.1 ≠ .nan) (ha3 : a.2.2 ≠ .nan)
    (hb1 : b.1 ≠ .nan) (hb2 : b.2.1 ≠ .nan) (hb3 : b.2.2 ≠ .nan) :
    specCompareD a b = 0 ↔ a = b := by
  constructor
  · intro h
    unfold specCompareD at h
    simp only [jsLT_eq_gt_swap] at h
    by_cases g1 : jsGT (some a.1) (some b.1) = true
    · rw [if_pos g1] at h
      norm_num at h
    · by_cases g1' : jsGT (some b.1) (some a.1) = true
      · rw [if_neg g1, if_pos g1'] at h
        norm_num at h
      · have e1 : a.1 = b.1 :=
          jsGT_connex ha1 hb1 (by simpa using g1) (by simpa using g1')
        rw [if_neg g1, if_neg g1'] at h
        by_cases g2 : jsGT (some a.2.1) (some b.2.1) = true
        · rw [if_pos g2] at h
          norm_num at h
        · by_cases g2' : jsGT (some b.2.1) (some a.2.1) = true
          · rw [if_neg g2, if_pos g2'] at h
            norm_num at h
          · have e2 : a.2.1 = b.2.1 :=
              jsGT_connex ha2 hb2 (by simpa using g2) (by simpa using g2')
            rw [if_neg g2, if_neg g2'] at h
            by_cases g3 : jsGT (some a.2.2) (some b.2.2) = true
            · rw [if_pos g3] at h
              norm_num at h
            · by_cases g3' : jsGT (some b.2.2) (some a.2.2) = true
              · rw [if_neg g3, if_pos g3'] at h
                norm_num at h
              · have e3 : a.2.2 = b.2.2 :=
                  jsGT_connex ha3 hb3 (by simpa using g3) (by simpa using g3')
                rcases a with ⟨x1, x2, x3⟩
                rcases b with ⟨y1, y2, y3⟩
                simp only [Prod.mk.injEq]
                exact ⟨e1, e2, e3⟩
  · rintro rfl
    unfold specCompareD
    simp [jsGT_self, jsLT_self]

set_option maxHeartbeats 1000000 in
theorem compareVersions_eq_specCompareD {a b : String} {pa pb : Nat × Nat × Nat}
    (ha : semverParts a = some pa) (hb : semverParts b = some pb) :
    compareVersions a b = specCompareD (roundTriple pa) (roundTriple pb) := by
  unfold semverParts at ha hb
  rcases hsa : jsSplitDot a with _ | ⟨x1, _ | ⟨x2, _ | ⟨x3, _ | ⟨x4, xr⟩⟩⟩⟩ <;>
    rw [hsa] at ha <;> try simp at ha
  rcases hsb : jsSplitDot b with _ | ⟨y1, _ | ⟨y2, _ | ⟨y3, _ | ⟨y4, yr⟩⟩⟩⟩ <;>
    rw [hsb] at hb <;> try simp at hb
  rcases hp1 : parseDigits x1.data with _ | n1 <;> rw [hp1] at ha <;> try simp at ha
  rcases hp2 : parseDigits x2.data with _ | n2 <;> rw [hp2] at ha <;> try simp at ha
  rcases hp3 : parseDigits x3.data with _ | n3 <;> rw [hp3] at ha <;> try simp at ha
  rcases hq1 : parseDigits y1.data with _ | m1 <;> rw [hq1] at hb <;> try simp at hb
  rcases hq2 : parseDigits y2.data with _ | m2 <;> rw [hq2] at hb <;> try simp at hb
  rcases hq3 : parseDigits y3.data with _ | m3 <;> rw [hq3] at hb <;> try simp at hb
  subst ha hb
  unfold compareVersions
  rw [hsa, hsb]
  simp only [List.map, jsStringToNumber_digits hp1, jsStringToNumber_digits hp2,
    jsStringToNumber_digits hp3, jsStringToNumber_digits hq1,
    jsStringToNumber_digits hq2, jsStringToNumber_digits hq3]
  simp only [List.getElem?_cons_zero, List.getElem?_cons_succ]
  unfold specCompareD roundTriple
  dsimp only

set_option maxRecDepth 10000 in
/-- C7 counterexample: both version strings match the three-part numeric
pattern and their first components are numerically different, yet the
comparator returns 0 in both orders — `Number` computes binary64 doubles, so
9007199254740993 (2^53 + 1) rounds to the same double as 9007199254740992
(2^53) and the code compares the components as equal, contradicting "equal
results exactly when all three components are numerically equal". -/
theorem c7_counterexample :
    semverParts "9007199254740993.0.0" = some (9007199254740993, 0, 0) ∧
    semverParts "9007199254740992.0.0" = some (9007199254740992, 0, 0) ∧
    (9007199254740993 : Nat) ≠ 9007199254740992 ∧
    compareVersions "9007199254740993.0.0" "9007199254740992.0.0" = 0 ∧
    compareVersions "9007199254740992.0.0" "9007199254740993.0.0" = 0 :=
  ⟨rfl, rfl, by decide, rfl, rfl⟩

/-- C7 amended: for two version strings matching the three-part numeric
pattern, the comparator returns the ordering obtained by comparing the three
components left to right as the binary64 doubles `Number` produces — exact
integers below 2^53, rounded to nearest (ties to even) above, Infinity
beyond the double range — with the first differing rounded component
deciding; it returns 0 exactly when the three rounded components coincide
(so in particular whenever the exact components are equal, but also for
numerically different components that round together at or beyond 2^53). -/
theorem c7_compareVersions_rounded {a b : String} {pa pb : Nat × Nat × Nat}
    (ha : semverParts a = some pa) (hb : semverParts b = some pb) :
    compareVersions a b = specCompareD (roundTriple pa) (roundTriple pb) ∧
      (compareVersions a b = 0 ↔ roundTriple pa = roundTriple pb) ∧
      (pa = pb → compareVersions a b = 0) := by
  have h := compareVersions_eq_specCompareD ha hb
  rcases pa with ⟨a1, a2, a3⟩
  rcases pb with ⟨b1, b2, b3⟩
  have hz := specCompareD_eq_zero_iff
    (a := roundTriple (a1, a2, a3)) (b := roundTriple (b1, b2, b3))
    (roundNatToDouble_ne_nan a1) (roundNatToDouble_ne_nan a2)
    (roundNatToDouble_ne_nan a3) (roundNatToDouble_ne_nan b1)
    (roundNatToDouble_ne_nan b2) (roundNatToDouble_ne_nan b3)
  refine ⟨h, ?_, ?_⟩
  · rw [h]
    exact hz
  · intro he
    rw [h]
    injection he with h1 h23
    injection h23 with h2 h3
    subst h1 h2 h3
    exact hz.mpr rfl

/-- Witness for C7 at the concrete pair "1.2.3" / "1.2.4". -/
theorem c7_witness :
    semverParts "1.2.3" = some (1, 2, 3) ∧ semverParts "1.2.4" = some (1, 2, 4) ∧
    compareVersions "1.2.3" "1.2.4" =
      specCompareD (roundTriple (1, 2, 3)) (roundTriple (1, 2, 4)) :=
  ⟨rfl, rfl,
    (@c7_compareVersions_rounded "1.2.3" "1.2.4" (1, 2, 3) (1, 2, 4) rfl rfl).1⟩

/-- C8: on version strings matching the three-part numeric pattern the
comparator behaves as a strict total order: it is antisymmetric
(`compare a b = -(compare b a)`) and transitive on strict comparisons. -/
theorem c8_strict_total_order {a b c : String} {pa pb pc : Nat × Nat × Nat}
    (ha : semverParts a = some pa) (hb : semverParts b = some pb)
    (hc : semverParts c = some pc) :
    compareVersions a b = -compareVersions b a ∧
      (compareVersions a b > 0 → compareVersions b c > 0 →
        compareVersions a c > 0) := by
  have hab := compareVersions_eq_specCompareD ha hb
  have hba := compareVersions_eq_specCompareD hb ha
  have hbc := compareVersions_eq_specCompareD hb hc
  have hac := compareVersions_eq_specCompareD ha hc
  rcases pa with ⟨a1, a2, a3⟩
  rcases pb with ⟨b1, b2, b3⟩
  rcases pc with ⟨c1, c2, c3⟩
  refine ⟨?_, ?_⟩
  · rw [hab, hba]
    exact specCompareD_neg _ _
  · intro h1 h2
    rw [hab] at h1
    rw [hbc] at h2
    rw [hac]
    exact specCompareD_trans_pos
      (roundNatToDouble_ne_nan a1) (roundNatToDouble_ne_nan a2)
      (roundNatToDouble_ne_nan a3) (roundNatToDouble_ne_nan b1)
      (roundNatToDouble_ne_nan b2) (roundNatToDouble_ne_nan b3)
      (roundNatToDouble_ne_nan c1) (roundNatToDouble_ne_nan c2)
      (roundNatToDouble_ne_nan c3) h1 h2

/-- Witness for C8 at the concrete triple "3.2.1" / "2.0.0" / "1.0.0". -/
theorem c8_witness :
    compareVersions "3.2.1" "2.0.0" = -compareVersions "2.0.0" "3.2.1" ∧
      compareVersions "3.2.1" "1.0.0" > 0 :=
  ⟨(@c8_strict_total_order "3.2.1" "2.0.0" "1.0.0" (3, 2, 1) (2, 0, 0) (1, 0, 0)
      rfl rfl rfl).1,
    (@c8_strict_total_order "3.2.1" "2.0.0" "1.0.0" (3, 2, 1) (2, 0, 0) (1, 0, 0)
      rfl rfl rfl).2 (by decide) (by decide)⟩


/-- C9: the comparator is total over all pairs of strings — it always returns
a value in {1, 0, -1} and never throws; a missing component (`undefined`) or
a non-numeric component (`NaN`) compares as neither greater nor less on
either side, so "1.0" and "1.0.0" silently compare as equal in both orders
instead of being rejected. -/
theorem c9_comparator_total_and_lenient :
    (∀ v1 v2 : String, compareVersions v1 v2 = 1 ∨ compareVersions v1 v2 = 0 ∨
      compareVersions v1 v2 = -1) ∧
    (∀ x : Option JSNum,
      jsGT none x = false ∧ jsLT none x = false ∧
      jsGT x none = false ∧ jsLT x none = false ∧
      jsGT (some .nan) x = false ∧ jsLT (some .nan) x = false ∧
      jsGT x (some .nan) = false ∧ jsLT x (some .nan) = false) ∧
    compareVersions "1.0" "1.0.0" = 0 ∧ compareVersions "1.0.0" "1.0" = 0 := by
  refine ⟨?_, ?_, rfl, rfl⟩
  · intro v1 v2
    unfold compareVersions
    dsimp only
    split_ifs <;> simp
  · intro x
    rcases x with _ | (_ | _ | _ | a) <;> simp [jsGT, jsLT]

theorem find_bang_eq_none_iff_all {α : Type} (p : α → Bool) (l : List α) :
    l.find? (fun a => !p a) = none ↔ l.all p = true := by
  rw [List.find?_eq_none, List.all_eq_true]
  constructor
  · intro h x hx
    have := h x hx
    simpa using this
  · intro h x hx
    simp [h x hx]

theorem getFieldE_error {m : JSValue} {f e : String}
    (h : getFieldE m f = .error e) : getField m f = .undefined := by
  cases m <;> simp_all [getFieldE, getField]

theorem getFieldE_ok {m : JSValue} {f : String} {v : JSValue}
    (h : getFieldE m f = .ok v) : getField m f = v := by
  cases m <;> simp_all [getFieldE]

theorem getFieldE_not_nullish {m : JSValue} (hm : isNullish m = false)
    (f : String) : getFieldE m f = .ok (getField m f) := by
  cases m <;> simp_all [isNullish, getFieldE]

theorem validateRequired_ok_iff (m : JSValue) (fields : List String) :
    validateRequired m fields = .ok () ↔
      fields.all (fun f => truthy (getField m f)) = true := by
  induction fields with
  | nil => simp [validateRequired]
  | cons f rest ih =>
    unfold validateRequired
    rcases hm : getFieldE m f with e | v
    · have hu := getFieldE_error hm
      constructor
      · intro h
        simp at h
      · intro h
        simp only [List.all_cons, Bool.and_eq_true] at h
        rw [hu] at h
        simp [truthy] at h
    · have hgv : getField m f = v := getFieldE_ok hm
      dsimp only
      by_cases ht : truthy v = true
      · rw [if_pos ht]
        rw [ih]
        simp [List.all_cons, hgv, ht]
      · rw [if_neg ht]
        constructor
        · intro h
          simp at h
        · intro h
          simp only [List.all_cons, Bool.and_eq_true] at h
          rw [hgv] at h
          exact absurd h.1 ht

theorem validateRequired_eq_find {m : JSValue} (hm : isNullish m = false)
    (fields : List String) :
    validateRequired m fields =
      (match fields.find? (fun f => !truthy (getField m f)) with
       | some f => .error ("Missing required field: " ++ f)
       | none => .ok ()) := by
  induction fields with
  | nil => rfl
  | cons f rest ih =>
    unfold validateRequired
    rw [getFieldE_not_nullish hm]
    dsimp only
    by_cases ht : truthy (getField m f) = true
    · rw [if_pos ht, ih, List.find?_cons_of_neg _ (by simp [ht])]
    · rw [if_neg ht, List.find?_cons_of_pos _ (by simp [ht])]

theorem validateStages_ok_iff (stages : List JSValue) :
    validateStages stages = .ok () ↔ stages.all stageOk = true := by
  induction stages with
  | nil => simp [validateStages]
  | cons st rest ih =>
    unfold validateStages
    rcases hst : getFieldE st "name" with e | nm
    · have hu := getFieldE_error hst
      constructor
      · intro h
        simp at h
      · intro h
        simp only [List.all_cons, Bool.and_eq_true] at h
        have h1 := h.1
        unfold stageOk at h1
        rw [hu] at h1
        simp [truthy] at h1
    · have hnm : getField st "name" = nm := getFieldE_ok hst
      dsimp only
      have hflip : (!truthy nm || !truthy (getField st "description") ||
          !truthy (getField st "guidance")) = !stageOk st := by
        unfold stageOk
        rw [hnm]
        cases truthy nm <;> cases truthy (getField st "description") <;>
          cases truthy (getField st "guidance") <;> rfl
      rw [hflip]
      by_cases hok : stageOk st = true
      · rw [if_neg (by simp [hok])]
        rw [ih]
        simp [List.all_cons, hok]
      · have hokf : stageOk st = false := by simpa using hok
        rw [if_pos (by simp [hokf])]
        constructor
        · intro h
          simp at h
        · intro h
          simp only [List.all_cons, Bool.and_eq_true] at h
          exact absurd h.1 hok

theorem validateStages_eq_find {stages : List JSValue}
    (hd : stages.all (fun st => !isNullish st) = true) :
    validateStages stages =
      (match stages.find? (fun st => !stageOk st) with
       | some _ => .error "Each stage must have name, description, and guidance"
       | none => .ok ()) := by
  induction stages with
  | nil => rfl
  | cons st rest ih =>
    simp only [List.all_cons, Bool.and_eq_true] at hd
    unfold validateStages
    rw [getFieldE_not_nullish (by simpa using hd.1)]
    dsimp only
    have hflip : (!truthy (getField st "name") ||
        !truthy (getField st "description") ||
        !truthy (getField st "guidance")) = !stageOk st := by
      unfold stageOk
      cases truthy (getField st "name") <;>
        cases truthy (getField st "description") <;>
        cases truthy (getField st "guidance") <;> rfl
    rw [hflip]
    by_cases hok : stageOk st = true
    · rw [if_neg (by simp [hok]), ih hd.2,
        List.find?_cons_of_neg _ (by simp [hok])]
    · have hokf : stageOk st = false := by simpa using hok
      rw [if_pos (by simp [hokf]), List.find?_cons_of_pos _ (by simp [hokf])]

theorem validateMethodology_ok_iff (m : JSValue) :
    validateMethodology m = .ok () ↔
      (checkRequired m = true ∧ checkStagesSeq m = true ∧ checkStageFields m = true ∧
        checkAuthor m = true ∧ checkVersionFormat m = true) := by
  unfold validateMethodology
  rcases hreq : validateRequired m requiredFields with er | u
  · have hr : ¬ checkRequired m = true := by
      unfold checkRequired
      intro hall
      have h2 := (validateRequired_ok_iff m requiredFields).mpr hall
      rw [hreq] at h2
      simp at h2
    constructor
    · intro h
      simp at h
    · rintro ⟨h1, -, -, -, -⟩
      exact absurd h1 hr
  · cases u
    have hr : checkRequired m = true := by
      unfold checkRequired
      exact (validateRequired_ok_iff m requiredFields).mp hreq
    dsimp only
    rcases hs : getField m "stages" with _ | _ | b | n | s2 | stages | fields
    · constructor
      · intro h
        simp at h
      · rintro ⟨-, h2, -, -, -⟩
        unfold checkStagesSeq at h2
        rw [hs] at h2
        simp at h2
    · constructor
      · intro h
        simp at h
      · rintro ⟨-, h2, -, -, -⟩
        unfold checkStagesSeq at h2
        rw [hs] at h2
        simp at h2
    · constructor
      · intro h
        simp at h
      · rintro ⟨-, h2, -, -, -⟩
        unfold checkStagesSeq at h2
        rw [hs] at h2
        simp at h2
    · constructor
      · intro h
        simp at h
      · rintro ⟨-, h2, -, -, -⟩
        unfold checkStagesSeq at h2
        rw [hs] at h2
        simp at h2
    · constructor
      · intro h
        simp at h
      · rintro ⟨-, h2, -, -, -⟩
        unfold checkStagesSeq at h2
        rw [hs] at h2
        simp at h2
    · dsimp only
      by_cases hemp : stages.isEmpty
      · rw [if_pos hemp]
        constructor
        · intro h
          simp at h
        · rintro ⟨-, h2, -, -, -⟩
          unfold checkStagesSeq at h2
          rw [hs] at h2
          simp_all
      · rw [if_neg hemp]
        have h2 : checkStagesSeq m = true := by
          unfold checkStagesSeq
          rw [hs]
          simp [hemp]
        rcases hstg : validateStages stages with er | u
        · have h3 : ¬ checkStageFields m = true := by
            unfold checkStageFields
            rw [hs]
            intro hall
            have hok := (validateStages_ok_iff stages).mpr hall
            rw [hstg] at hok
            simp at hok
          constructor
          · intro h
            simp at h
          · rintro ⟨-, -, h3', -, -⟩
            exact absurd h3' h3
        · cases u
          dsimp only
          have h3 : checkStageFields m = true := by
            unfold checkStageFields
            rw [hs]
            exact (validateStages_ok_iff stages).mp hstg
          have hca : (!truthy (getField (getField m "author") "name") ||
              !truthy (getField (getField m "author") "email")) =
                !(checkAuthor m) := by
            unfold checkAuthor
            rw [Bool.not_and]
          rw [hca]
          cases hauth : checkAuthor m
          · rw [if_pos (by simp)]
            constructor
            · intro h
              simp at h
            · rintro ⟨-, -, -, h4, -⟩
              simp_all
          · rw [if_neg (by simp)]
            by_cases hv : versionPatternTest (getField m "version") = true
            · rw [if_pos hv]
              have h5 : checkVersionFormat m = true := hv
              simp [hr, h2, h3, h5]
            · rw [if_neg hv]
              constructor
              · intro h
                simp at h
              · rintro ⟨-, -, -, -, h5⟩
                exact absurd h5 hv
    · constructor
      · intro h
        simp at h
      · rintro ⟨-, h2, -, -, -⟩
        unfold checkStagesSeq at h2
        rw [hs] at h2
        simp at h2

theorem validateMethodology_err_required {m : JSValue} {f : String}
    (hm : isNullish m = false)
    (hf : requiredFields.find? (fun g => !truthy (getField m g)) = some f) :
    validateMethodology m = .error ("Missing required field: " ++ f) := by
  unfold validateMethodology
  rw [validateRequired_eq_find hm, hf]

theorem validateMethodology_err_stages {m : JSValue} (h1 : checkRequired m = true)
    (h2 : checkStagesSeq m = false) :
    validateMethodology m = .error "Methodology must have at least one stage" := by
  unfold validateMethodology
  unfold checkRequired at h1
  rw [(validateRequired_ok_iff m requiredFields).mpr h1]
  dsimp only
  unfold checkStagesSeq at h2
  rcases hs : getField m "stages" with _ | _ | b | n | s2 | stages | fields <;>
    rw [hs] at h2 <;> try rfl
  dsimp only
  rw [if_pos (by simpa using h2)]

theorem validateMethodology_err_stageFields {m : JSValue}
    (h1 : checkRequired m = true) (h2 : checkStagesSeq m = true)
    (hd : checkStagesDeref m = true) (h3 : checkStageFields m = false) :
    validateMethodology m =
      .error "Each stage must have name, description, and guidance" := by
  unfold validateMethodology
  unfold checkRequired at h1
  rw [(validateRequired_ok_iff m requiredFields).mpr h1]
  dsimp only
  unfold checkStagesSeq at h2
  unfold checkStagesDeref at hd
  unfold checkStageFields at h3
  rcases hs : getField m "stages" with _ | _ | b | n | s2 | stages | fields <;>
    rw [hs] at h2 h3 hd <;> dsimp only at h2 h3 hd <;> simp at h2
  dsimp only
  rw [if_neg (by simp_all)]
  rw [validateStages_eq_find hd]
  rcases hfs : stages.find? (fun st => !stageOk st) with _ | st
  · exact absurd ((find_bang_eq_none_iff_all _ _).mp hfs) (by simp [h3])
  · rfl

theorem validateMethodology_err_author {m : JSValue} (h1 : checkRequired m = true)
    (h2 : checkStagesSeq m = true) (h3 : checkStageFields m = true)
    (h4 : checkAuthor m = false) :
    validateMethodology m = .error "Author must have name and email" := by
  unfold validateMethodology
  unfold checkRequired at h1
  rw [(validateRequired_ok_iff m requiredFields).mpr h1]
  dsimp only
  unfold checkStagesSeq at h2
  unfold checkStageFields at h3
  rcases hs : getField m "stages" with _ | _ | b | n | s2 | stages | fields <;>
    rw [hs] at h2 h3 <;> dsimp only at h2 h3 <;> simp at h2
  dsimp only
  rw [if_neg (by simp_all)]
  rw [(validateStages_ok_iff stages).mpr h3]
  dsimp only
  have hca : (!truthy (getField (getField m "author") "name") ||
      !truthy (getField (getField m "author") "email")) = !(checkAuthor m) := by
    unfold checkAuthor
    rw [Bool.not_and]
  rw [hca, h4]
  simp

theorem validateMethodology_err_version {m : JSValue} (h1 : checkRequired m = true)
    (h2 : checkStagesSeq m = true) (h3 : checkStageFields m = true)
    (h4 : checkAuthor m = true) (h5 : checkVersionFormat m = false) :
    validateMethodology m =
      .error "Version must follow semver format (e.g., 1.0.0)" := by
  unfold validateMethodology
  unfold checkRequired at h1
  rw [(validateRequired_ok_iff m requiredFields).mpr h1]
  dsimp only
  unfold checkStagesSeq at h2
  unfold checkStageFields at h3
  rcases hs : getField m "stages" with _ | _ | b | n | s2 | stages | fields <;>
    rw [hs] at h2 h3 <;> dsimp only at h2 h3 <;> simp at h2
  dsimp only
  rw [if_neg (by simp_all)]
  rw [(validateStages_ok_iff stages).mpr h3]
  dsimp only
  have hca : (!truthy (getField (getField m "author") "name") ||
      !truthy (getField (getField m "author") "email")) = !(checkAuthor m) := by
    unfold checkAuthor
    rw [Bool.not_and]
  rw [hca, h4]
  rw [if_neg (by simp)]
  unfold checkVersionFormat at h5
  rw [if_neg (by simp [h5])]

/-- C4 amended: acceptance is exactly the five checks with check (5) applied
— as the code applies it — to the JavaScript `String()` coercion of the
version value, so a non-string version whose coercion matches the pattern
(such as the single-element array ["1.0.0"]) is silently accepted; rejection
names the first failing rule in source order, except that a
`null`/`undefined` stage element is rejected with the thrown TypeError of
the property access rather than the stage rule's message; the four
canonical bad candidates of the specification are each rejected with the
corresponding message. -/
theorem c4_validator_checks :
    (∀ m : JSValue, validateMethodology m = .ok () ↔
      (checkRequired m = true ∧ checkStagesSeq m = true ∧ checkStageFields m = true ∧
        checkAuthor m = true ∧ checkVersionFormat m = true)) ∧
    (∀ (m : JSValue) (f : String), isNullish m = false →
      requiredFields.find? (fun g => !truthy (getField m g)) = some f →
      validateMethodology m = .error ("Missing required field: " ++ f)) ∧
    (∀ m : JSValue, checkRequired m = true → checkStagesSeq m = false →
      validateMethodology m = .error "Methodology must have at least one stage") ∧
    (∀ m : JSValue, checkRequired m = true → checkStagesSeq m = true →
      checkStagesDeref m = true → checkStageFields m = false →
      validateMethodology m =
        .error "Each stage must have name, description, and guidance") ∧
    (∀ m : JSValue, checkRequired m = true → checkStagesSeq m = true →
      checkStageFields m = true → checkAuthor m = false →
      validateMethodology m = .error "Author must have name and email") ∧
    (∀ m : JSValue, checkRequired m = true → checkStagesSeq m = true →
      checkStageFields m = true → checkAuthor m = true →
      checkVersionFormat m = false →
      validateMethodology m =
        .error "Version must follow semver format (e.g., 1.0.0)") ∧
    validateMethodology exNullStage =
      .error "Cannot read properties of null (reading 'name')" ∧
    validateMethodology exNoStages = .error "Missing required field: stages" ∧
    validateMethodology exStageNoDescription =
      .error "Each stage must have name, description, and guidance" ∧
    validateMethodology exAuthorNoEmail = .error "Author must have name and email" ∧
    validateMethodology exTwoPartVersion =
      .error "Version must follow semver format (e.g., 1.0.0)" :=
  ⟨validateMethodology_ok_iff,
    fun m f hm hf => validateMethodology_err_required hm hf,
    fun m h1 h2 => validateMethodology_err_stages h1 h2,
    fun m h1 h2 hd h3 => validateMethodology_err_stageFields h1 h2 hd h3,
    fun m h1 h2 h3 h4 => validateMethodology_err_author h1 h2 h3 h4,
    fun m h1 h2 h3 h4 h5 => validateMethodology_err_version h1 h2 h3 h4 h5,
    rfl, rfl, rfl, rfl, rfl⟩

/-- C4 counterexample: a candidate whose `version` is the single-element
array ["1.0.0"] — not a string matching the pattern, which the claim's
check (5) (and specification 4.1's "never silently coerced") requires to be
rejected — is accepted by the validator: `versionPattern.test` coerces the
array through `String()` to "1.0.0". -/
theorem c4_counterexample :
    checkVersionStrict exArrVersion = false ∧
      validateMethodology exArrVersion = .ok () := by
  refine ⟨rfl, (validateMethodology_ok_iff exArrVersion).mpr ⟨rfl, rfl, rfl, rfl, ?_⟩⟩
  have hjs : jsToString (JSValue.arr [JSValue.str "1.0.0"]) = "1.0.0" := by
    simp [jsToString, jsToStringElems, jsToStringElem]
  unfold checkVersionFormat
  show versionPatternTest (JSValue.arr [JSValue.str "1.0.0"]) = true
  unfold versionPatternTest
  dsimp only
  rw [hjs]
  rfl

/-- Witness for C4: the acceptance characterisation applied to the valid
candidate, and the rule-5 implication applied to the two-part-version
candidate, all hypotheses discharged by evaluation. -/
theorem c4_witness :
    validateMethodology exGood = .ok () ∧
      validateMethodology exTwoPartVersion =
        .error "Version must follow semver format (e.g., 1.0.0)" :=
  ⟨(c4_validator_checks.1 exGood).mpr ⟨rfl, rfl, rfl, rfl, rfl⟩,
    c4_validator_checks.2.2.2.2.2.1 exTwoPartVersion rfl rfl rfl rfl rfl⟩

theorem syncLoop_nil (fetch : String → FetchResult) (ls : LoopState) :
    syncLoop fetch [] ls = ls := rfl

theorem syncLoop_cons_ok {fetch : String → FetchResult} {e : RemoteEntry}
    {ls : LoopState} {store' : LocalStore} {added' updated' : List JSValue}
    (he : eligible e = true)
    (h : syncMethodologyFile fetch ls.store e.path ls.added ls.updated =
      .ok (store', added', updated')) (rest : List RemoteEntry) :
    syncLoop fetch (e :: rest) ls =
      syncLoop fetch rest
        { store := store', added := added', updated := updated',
            errors := ls.errors, fetched := ls.fetched ++ [e.path] } := by
  rw [syncLoop]
  rw [if_pos he, h]

theorem syncLoop_cons_err {fetch : String → FetchResult} {e : RemoteEntry}
    {ls : LoopState} {msg : String}
    (he : eligible e = true)
    (h : syncMethodologyFile fetch ls.store e.path ls.added ls.updated = .error msg)
    (rest : List RemoteEntry) :
    syncLoop fetch (e :: rest) ls =
      syncLoop fetch rest
        { ls with
            errors := ls.errors ++ [e.name ++ ": " ++ msg],
            fetched := ls.fetched ++ [e.path] } := by
  rw [syncLoop]
  rw [if_pos he, h]

theorem syncLoop_cons_skip {fetch : String → FetchResult} {e : RemoteEntry}
    (he : eligible e = false) (rest : List RemoteEntry) (ls : LoopState) :
    syncLoop fetch (e :: rest) ls = syncLoop fetch rest ls := by
  rw [syncLoop]
  rw [if_neg (by simp [he])]

theorem syncLoop_fetched (fetch : String → FetchResult) (entries : List RemoteEntry) :
    ∀ ls : LoopState, (syncLoop fetch entries ls).fetched =
      ls.fetched ++ (entries.filter eligible).map RemoteEntry.path := by
  induction entries with
  | nil =>
    intro ls
    simp [syncLoop_nil]
  | cons e rest ih =>
    intro ls
    by_cases he : eligible e
    · rcases hstep : syncMethodologyFile fetch ls.store e.path ls.added ls.updated with
        msg | ⟨store', added', updated'⟩
      · rw [syncLoop_cons_err he hstep, ih]
        simp [List.filter_cons, he]
      · rw [syncLoop_cons_ok he hstep, ih]
        simp [List.filter_cons, he]
    · rw [syncLoop_cons_skip (by simpa using he), ih]
      simp [List.filter_cons, he]

/-- C10: only directory entries of type "file" whose name ends with ".json"
are fetched and processed: the run's content-fetch log is exactly the
eligible entries' paths in order, and an ineligible entry (a subdirectory or
a non-JSON file) leaves the entire run state — store, added, updated, errors
and the fetch log — untouched. -/
theorem c10_only_json_files (fetch : String → FetchResult) :
    (∀ (entries : List RemoteEntry) (ls : LoopState),
      (syncLoop fetch entries ls).fetched =
        ls.fetched ++ (entries.filter eligible).map RemoteEntry.path) ∧
    (∀ (e : RemoteEntry) (rest : List RemoteEntry) (ls : LoopState),
      eligible e = false →
      syncLoop fetch (e :: rest) ls = syncLoop fetch rest ls) :=
  ⟨fun entries ls => syncLoop_fetched fetch entries ls,
    fun e rest ls he => syncLoop_cons_skip he rest ls⟩

/-- Witness for C10: a subdirectory entry and a non-JSON file are skipped
without touching the run state. -/
theorem c10_witness :
    eligible ⟨"dir", "sub", "methodologies/sub"⟩ = false ∧
    eligible ⟨"file", "README.md", "methodologies/README.md"⟩ = false ∧
    syncLoop fetchA [⟨"dir", "sub", "methodologies/sub"⟩,
        ⟨"file", "README.md", "methodologies/README.md"⟩] ⟨[], [], [], [], []⟩ =
      syncLoop fetchA [⟨"file", "README.md", "methodologies/README.md"⟩]
        ⟨[], [], [], [], []⟩ :=
  ⟨rfl, rfl, (c10_only_json_files fetchA).2 ⟨"dir", "sub", "methodologies/sub"⟩
    [⟨"file", "README.md", "methodologies/README.md"⟩] ⟨[], [], [], [], []⟩ rfl⟩

/-- C6: a failure on one file — a rejected fetch, a JSON parse failure, or a
validation failure — is recorded as the per-file entry "name: message" in
the run's error list while store, added and updated stay unchanged, and the
loop continues with the remaining files exactly as it would from that state;
the three failure modes produce exactly these thrown errors. -/
theorem c6_per_file_errors (fetch : String → FetchResult) :
    (∀ (e : RemoteEntry) (rest : List RemoteEntry) (ls : LoopState) (msg : String),
      eligible e = true →
      syncMethodologyFile fetch ls.store e.path ls.added ls.updated = .error msg →
      syncLoop fetch (e :: rest) ls =
        syncLoop fetch rest
          { ls with
              errors := ls.errors ++ [e.name ++ ": " ++ msg],
              fetched := ls.fetched ++ [e.path] }) ∧
    (∀ (store : LocalStore) (path : String) (added updated : List JSValue) (msg : String),
      fetch path = .err msg →
      syncMethodologyFile fetch store path added updated = .error msg) ∧
    (∀ (store : LocalStore) (path : String) (added updated : List JSValue),
      fetch path = .file none →
      syncMethodologyFile fetch store path added updated = .error "Invalid JSON format") ∧
    (∀ (store : LocalStore) (path : String) (added updated : List JSValue)
      (m : JSValue) (e : String),
      fetch path = .file (some m) → validateMethodology m = .error e →
      syncMethodologyFile fetch store path added updated = .error e) := by
  refine ⟨fun e rest ls msg he h => syncLoop_cons_err he h rest, ?_, ?_, ?_⟩
  · intro store path added updated msg hf
    unfold syncMethodologyFile
    rw [hf]
  · intro store path added updated hf
    unfold syncMethodologyFile
    rw [hf]
  · intro store path added updated m e hf hv
    unfold syncMethodologyFile
    rw [hf]
    dsimp only
    rw [hv]

/-- Witness for C6: the remote rejects "bad.json" with "Not Found"; the run
records "bad.json: Not Found" and continues with the next file, which is
still added normally. -/
theorem c6_witness :
    syncMethodologyFile fetchA [] "bad.json" [] [] = .error "Not Found" ∧
    syncLoop fetchA [⟨"file", "bad.json", "bad.json"⟩, entryA] ⟨[], [], [], [], []⟩ =
      syncLoop fetchA [entryA]
        ⟨[], [], [], ["bad.json: Not Found"], ["bad.json"]⟩ :=
  ⟨rfl, (c6_per_file_errors fetchA).1 ⟨"file", "bad.json", "bad.json"⟩ [entryA]
    ⟨[], [], [], [], []⟩ "Not Found" rfl rfl⟩

/-- C2 counterexample: with a remote whose directory listing fails with
"Not Found" (a not-found remote repository), the run does not complete with
a tri-partite outcome — the error is rethrown to the caller as the exception
`Failed to sync from GitHub: Not Found`, contradicting the claim that
remote-repository errors are always mapped into the run's error list. -/
theorem c2_counterexample :
    syncFromGitHub (.err "Not Found") (fun p => .err "Not Found") [] =
      .error "Failed to sync from GitHub: Not Found" := rfl

/-- C2 amended: a run that obtains the remote directory listing always
completes and returns the tri-partite outcome {added, updated, errors}; a
rejected fetch of an individual file is mapped into the run's error list and
the run continues with the remaining files; but a failure of the directory
listing itself — or a non-array listing — aborts the run with a rethrown
exception rather than a tri-partite outcome. -/
theorem c2_run_outcome (fetch : String → FetchResult) :
    (∀ (entries : List RemoteEntry) (store : LocalStore),
      syncFromGitHub (.dir entries) fetch store =
        .ok (syncLoop fetch entries ⟨store, [], [], [], []⟩)) ∧
    (∀ (e : RemoteEntry) (rest : List RemoteEntry) (ls : LoopState) (msg : String),
      eligible e = true → fetch e.path = .err msg →
      syncLoop fetch (e :: rest) ls =
        syncLoop fetch rest
          { ls with
              errors := ls.errors ++ [e.name ++ ": " ++ msg],
              fetched := ls.fetched ++ [e.path] }) ∧
    (∀ (msg : String) (store : LocalStore),
      syncFromGitHub (.err msg) fetch store =
        .error ("Failed to sync from GitHub: " ++ msg)) ∧
    (∀ store : LocalStore, syncFromGitHub .notDir fetch store =
      .error "Failed to sync from GitHub: Methodologies directory not found or not a directory") := by
  refine ⟨fun entries store => rfl, ?_, fun msg store => rfl, fun store => rfl⟩
  intro e rest ls msg he hf
  refine syncLoop_cons_err he ?_ rest
  unfold syncMethodologyFile
  rw [hf]

/-- Witness for C2: the per-file mapping applied to a concrete rejected
fetch. -/
theorem c2_witness :
    fetchA "bad2.json" = .err "Not Found" ∧
    syncLoop fetchA [⟨"file", "bad2.json", "bad2.json"⟩] ⟨[], [], [], [], []⟩ =
      syncLoop fetchA [] ⟨[], [], [], ["bad2.json: Not Found"], ["bad2.json"]⟩ :=
  ⟨rfl, (c2_run_outcome fetchA).2.1 ⟨"file", "bad2.json", "bad2.json"⟩ []
    ⟨[], [], [], [], []⟩ "Not Found" rfl rfl⟩

/-- C3 counterexample: two triggerSync calls in quick succession — no run
completing in between — leave two runs in flight, not one; the claimed
no-op second call does not exist in the code. -/
theorem c3_counterexample :
    triggerSyncStep ⟨none, none⟩ (triggerSyncStep ⟨none, none⟩ 0) = 2 ∧
      triggerSyncStep ⟨none, none⟩ (triggerSyncStep ⟨none, none⟩ 0) ≠ 1 :=
  ⟨rfl, by simp [triggerSyncStep]⟩

/-- C3 amended: the engine has no single-flight guard — for every engine
state and every number of runs already in flight, a manual trigger or timer
fire starts one more run; re-entrant triggers are neither ignored nor
queued. -/
theorem c3_no_single_flight (s : GitHubSyncState) (n : Nat) :
    triggerSyncStep s n = n + 1 := rfl

/-- C1 amended: the version gate is keyed by file basename, not by record
id. For an eligible file whose fetch, parse and validation succeed: if a
local file with the same basename exists and the candidate's version is not
strictly greater than that file's record's version, the candidate is skipped
— store, added, updated and errors all unchanged; if strictly greater, the
candidate fully replaces that file's record (no field carried over) and its
id is recorded in updated; if no file with that basename exists, the
candidate is persisted there and its id recorded in added. -/
theorem c1_version_gate_by_basename (fetch : String → FetchResult) (e : RemoteEntry)
    (ls : LoopState) (m : JSValue)
    (he : eligible e = true) (hm : fetch e.path = .file (some m))
    (hv : validateMethodology m = .ok ()) :
    syncLoop fetch [e] ls = specFileOutcome m e.name e.path ls := by
  rcases hl : ls.store.lookup (pathBasename e.path) with _ | localM
  · have hstep : syncMethodologyFile fetch ls.store e.path ls.added ls.updated =
        .ok (storeWrite ls.store (pathBasename e.path) m,
          ls.added ++ [getField m "id"], ls.updated) := by
      unfold syncMethodologyFile
      rw [hm]
      dsimp only
      rw [hv]
      dsimp only
      rw [hl]
    rw [syncLoop_cons_ok he hstep, syncLoop_nil]
    unfold specFileOutcome
    rw [hl]
  · rcases hmv : getField m "version" with _ | _ | bm | nm | mv | elm | flm
    · have hstep : syncMethodologyFile fetch ls.store e.path ls.added ls.updated =
          .error "TypeError: version.split is not a function" := by
        unfold syncMethodologyFile
        rw [hm]
        dsimp only
        rw [hv]
        dsimp only
        rw [hl]
        dsimp only
        rw [hmv]
      rw [syncLoop_cons_err he hstep, syncLoop_nil]
      unfold specFileOutcome
      rw [hl]
      dsimp only
      rw [hmv]
    · have hstep : syncMethodologyFile fetch ls.store e.path ls.added ls.updated =
          .error "TypeError: version.split is not a function" := by
        unfold syncMethodologyFile
        rw [hm]
        dsimp only
        rw [hv]
        dsimp only
        rw [hl]
        dsimp only
        rw [hmv]
      rw [syncLoop_cons_err he hstep, syncLoop_nil]
      unfold specFileOutcome
      rw [hl]
      dsimp only
      rw [hmv]
    · have hstep : syncMethodologyFile fetch ls.store e.path ls.added ls.updated =
          .error "TypeError: version.split is not a function" := by
        unfold syncMethodologyFile
        rw [hm]
        dsimp only
        rw [hv]
        dsimp only
        rw [hl]
        dsimp only
        rw [hmv]
      rw [syncLoop_cons_err he hstep, syncLoop_nil]
      unfold specFileOutcome
      rw [hl]
      dsimp only
      rw [hmv]
    · have hstep : syncMethodologyFile fetch ls.store e.path ls.added ls.updated =
          .error "TypeError: version.split is not a function" := by
        unfold syncMethodologyFile
        rw [hm]
        dsimp only
        rw [hv]
        dsimp only
        rw [hl]
        dsimp only
        rw [hmv]
      rw [syncLoop_cons_err he hstep, syncLoop_nil]
      unfold specFileOutcome
      rw [hl]
      dsimp only
      rw [hmv]
    · rcases hlv : getField localM "version" with _ | _ | b | n | lvs | el | fl
      · have hstep : syncMethodologyFile fetch ls.store e.path ls.added ls.updated =
            .error "TypeError: version.split is not a function" := by
          unfold syncMethodologyFile
          rw [hm]
          dsimp only
          rw [hv]
          dsimp only
          rw [hl]
          dsimp only
          rw [hmv, hlv]
        rw [syncLoop_cons_err he hstep, syncLoop_nil]
        unfold specFileOutcome
        rw [hl]
        dsimp only
        rw [hmv, hlv]
      · have hstep : syncMethodologyFile fetch ls.store e.path ls.added ls.updated =
            .error "TypeError: version.split is not a function" := by
          unfold syncMethodologyFile
          rw [hm]
          dsimp only
          rw [hv]
          dsimp only
          rw [hl]
          dsimp only
          rw [hmv, hlv]
        rw [syncLoop_cons_err he hstep, syncLoop_nil]
        unfold specFileOutcome
        rw [hl]
        dsimp only
        rw [hmv, hlv]
      · have hstep : syncMethodologyFile fetch ls.store e.path ls.added ls.updated =
            .error "TypeError: version.split is not a function" := by
          unfold syncMethodologyFile
          rw [hm]
          dsimp only
          rw [hv]
          dsimp only
          rw [hl]
          dsimp only
          rw [hmv, hlv]
        rw [syncLoop_cons_err he hstep, syncLoop_nil]
        unfold specFileOutcome
        rw [hl]
        dsimp only
        rw [hmv, hlv]
      · have hstep : syncMethodologyFile fetch ls.store e.path ls.added ls.updated =
            .error "TypeError: version.split is not a function" := by
          unfold syncMethodologyFile
          rw [hm]
          dsimp only
          rw [hv]
          dsimp only
          rw [hl]
          dsimp only
          rw [hmv, hlv]
        rw [syncLoop_cons_err he hstep, syncLoop_nil]
        unfold specFileOutcome
        rw [hl]
        dsimp only
        rw [hmv, hlv]
      · by_cases hc : compareVersions mv lvs ≤ 0
        · have hstep : syncMethodologyFile fetch ls.store e.path ls.added ls.updated =
              .ok (ls.store, ls.added, ls.updated) := by
            unfold syncMethodologyFile
            rw [hm]
            dsimp only
            rw [hv]
            dsimp only
            rw [hl]
            dsimp only
            rw [hmv, hlv]
            dsimp only
            rw [if_pos hc]
          rw [syncLoop_cons_ok he hstep, syncLoop_nil]
          unfold specFileOutcome
          rw [hl]
          dsimp only
          rw [hmv, hlv]
          dsimp only
          rw [if_pos hc]
        · have hstep : syncMethodologyFile fetch ls.store e.path ls.added ls.updated =
              .ok (storeWrite ls.store (pathBasename e.path) m, ls.added,
                ls.updated ++ [getField m "id"]) := by
            unfold syncMethodologyFile
            rw [hm]
            dsimp only
            rw [hv]
            dsimp only
            rw [hl]
            dsimp only
            rw [hmv, hlv]
            dsimp only
            rw [if_neg hc]
          rw [syncLoop_cons_ok he hstep, syncLoop_nil]
          unfold specFileOutcome
          rw [hl]
          dsimp only
          rw [hmv, hlv]
          dsimp only
          rw [if_neg hc]
      · have hstep : syncMethodologyFile fetch ls.store e.path ls.added ls.updated =
            .error "TypeError: version.split is not a function" := by
          unfold syncMethodologyFile
          rw [hm]
          dsimp only
          rw [hv]
          dsimp only
          rw [hl]
          dsimp only
          rw [hmv, hlv]
        rw [syncLoop_cons_err he hstep, syncLoop_nil]
        unfold specFileOutcome
        rw [hl]
        dsimp only
        rw [hmv, hlv]
      · have hstep : syncMethodologyFile fetch ls.store e.path ls.added ls.updated =
            .error "TypeError: version.split is not a function" := by
          unfold syncMethodologyFile
          rw [hm]
          dsimp only
          rw [hv]
          dsimp only
          rw [hl]
          dsimp only
          rw [hmv, hlv]
        rw [syncLoop_cons_err he hstep, syncLoop_nil]
        unfold specFileOutcome
        rw [hl]
        dsimp only
        rw [hmv, hlv]
    · have hstep : syncMethodologyFile fetch ls.store e.path ls.added ls.updated =
          .error "TypeError: version.split is not a function" := by
        unfold syncMethodologyFile
        rw [hm]
        dsimp only
        rw [hv]
        dsimp only
        rw [hl]
        dsimp only
        rw [hmv]
      rw [syncLoop_cons_err he hstep, syncLoop_nil]
      unfold specFileOutcome
      rw [hl]
      dsimp only
      rw [hmv]
    · have hstep : syncMethodologyFile fetch ls.store e.path ls.added ls.updated =
          .error "TypeError: version.split is not a function" := by
        unfold syncMethodologyFile
        rw [hm]
        dsimp only
        rw [hv]
        dsimp only
        rw [hl]
        dsimp only
        rw [hmv]
      rw [syncLoop_cons_err he hstep, syncLoop_nil]
      unfold specFileOutcome
      rw [hl]
      dsimp only
      rw [hmv]

/-- Witness for C1 at the concrete skip case: the local file "a.json" holds
version "9.9.9"; the remote candidate in "a.json" has version "1.0.0" and is
skipped, leaving the run state unchanged apart from the fetch log. -/
theorem c1_witness :
    eligible entryA = true ∧
    fetchA entryA.path = .file (some exCandidateLowV) ∧
    validateMethodology exCandidateLowV = .ok () ∧
    syncLoop fetchA [entryA] ⟨[("a.json", exStoredHighV)], [], [], [], []⟩ =
      specFileOutcome exCandidateLowV "a.json" "a.json"
        ⟨[("a.json", exStoredHighV)], [], [], [], []⟩ :=
  ⟨rfl, rfl, rfl,
    c1_version_gate_by_basename fetchA entryA
      ⟨[("a.json", exStoredHighV)], [], [], [], []⟩ exCandidateLowV rfl rfl rfl⟩

/-- C1 counterexample to the id-keyed reading: the local catalog holds (in
"b.json") a record with id "x" and version "9.9.9"; the remote file "a.json"
carries a valid candidate with the same id "x" and the lower version
"1.0.0". The candidate's id has a local catalog entry with a strictly
greater version, so the claim requires the candidate to be skipped and its
id to appear in no list — yet the run persists the candidate alongside the
old record and reports id "x" as added, because the source keys the gate by
file basename, not by record id. -/
theorem c1_counterexample :
    getField exCandidateLowV "id" = .str "x" ∧
    getField exStoredHighV "id" = .str "x" ∧
    getField exCandidateLowV "version" = .str "1.0.0" ∧
    getField exStoredHighV "version" = .str "9.9.9" ∧
    compareVersions "1.0.0" "9.9.9" = -1 ∧
    syncFromGitHub (.dir [entryA]) fetchA [("b.json", exStoredHighV)] =
      .ok { store := [("b.json", exStoredHighV), ("a.json", exCandidateLowV)],
            added := [.str "x"], updated := [], errors := [],
            fetched := ["a.json"] } :=
  ⟨rfl, rfl, rfl, rfl, rfl, rfl⟩

theorem storeWrite_lookup_self (st : LocalStore) (k : String) (v : JSValue) :
    (storeWrite st k v).lookup k = some v := by
  induction st with
  | nil => simp [storeWrite, List.lookup]
  | cons p rest ih =>
    rcases p with ⟨k', v'⟩
    unfold storeWrite
    by_cases hk : k' = k
    · rw [if_pos hk]
      simp [List.lookup]
    · rw [if_neg hk]
      have hne : (k == k') = false := by
        rw [beq_eq_false_iff_ne]
        exact fun h => hk h.symm
      simp [List.lookup, hne, ih]

theorem storeWrite_lookup_ne {b k : String} (hbk : b ≠ k) (st : LocalStore)
    (v : JSValue) : (storeWrite st k v).lookup b = st.lookup b := by
  have hbkf : (b == k) = false := by
    rw [beq_eq_false_iff_ne]
    exact hbk
  induction st with
  | nil => simp [storeWrite, List.lookup, hbkf]
  | cons p rest ih =>
    rcases p with ⟨k', v'⟩
    unfold storeWrite
    by_cases hk : k' = k
    · rw [if_pos hk]
      subst hk
      simp [List.lookup, hbkf]
    · rw [if_neg hk]
      cases hb : (b == k') <;> simp [List.lookup, hb, ih]

theorem syncMethodologyFile_frame {fetch : String → FetchResult}
    {store : LocalStore} {path : String} {added updated : List JSValue}
    {store' : LocalStore} {a' u' : List JSValue}
    (h : syncMethodologyFile fetch store path added updated = .ok (store', a', u'))
    {b : String} (hb : b ≠ pathBasename path) :
    store'.lookup b = store.lookup b := by
  unfold syncMethodologyFile at h
  split at h
  · exact absurd h (by simp)
  · simp only [Except.ok.injEq, Prod.mk.injEq] at h
    rw [← h.1]
  · exact absurd h (by simp)
  · split at h
    · exact absurd h (by simp)
    · dsimp only at h
      split at h
      · split at h
        · split at h
          · simp only [Except.ok.injEq, Prod.mk.injEq] at h
            rw [← h.1]
          · simp only [Except.ok.injEq, Prod.mk.injEq] at h
            rw [← h.1]
            exact storeWrite_lookup_ne hb store _
        · exact absurd h (by simp)
      · simp only [Except.ok.injEq, Prod.mk.injEq] at h
        rw [← h.1]
        exact storeWrite_lookup_ne hb store _

theorem syncMethodologyFile_stable {fetch : String → FetchResult}
    {store : LocalStore} {path : String} {added updated : List JSValue}
    {store' : LocalStore} {a' u' : List JSValue} {T : LocalStore}
    (h : syncMethodologyFile fetch store path added updated = .ok (store', a', u'))
    (hT : T.lookup (pathBasename path) = store'.lookup (pathBasename path))
    (A U : List JSValue) :
    syncMethodologyFile fetch T path A U = .ok (T, A, U) ∨
      syncMethodologyFile fetch T path A U =
        .error "TypeError: version.split is not a function" := by
  unfold syncMethodologyFile at h ⊢
  rcases hf : fetch path with msg | _ | om
  · rw [hf] at h
    exact absurd h (by simp)
  · left
    rfl
  · rcases om with _ | m
    · rw [hf] at h
      exact absurd h (by simp)
    · rw [hf] at h
      dsimp only at h ⊢
      rcases hval : validateMethodology m with er | u
      · rw [hval] at h
        exact absurd h (by simp)
      · cases u
        rw [hval] at h
        dsimp only at h ⊢
        rcases hl : store.lookup (pathBasename path) with _ | lm
        · rw [hl] at h
          dsimp only at h
          simp only [Except.ok.injEq, Prod.mk.injEq] at h
          have hT' : T.lookup (pathBasename path) = some m := by
            rw [hT, ← h.1, storeWrite_lookup_self]
          rw [hT']
          dsimp only
          rcases hmv : getField m "version" with _ | _ | bm | nm | mv | elm | flm
          · right
            rfl
          · right
            rfl
          · right
            rfl
          · right
            rfl
          · left
            dsimp only
            rw [if_pos (le_of_eq (compareVersions_self mv))]
          · right
            rfl
          · right
            rfl
        · rw [hl] at h
          dsimp only at h
          rcases hmv : getField m "version" with _ | _ | bm | nm | mv | elm | flm <;>
            rw [hmv] at h
          · exact Except.noConfusion h
          · exact Except.noConfusion h
          · exact Except.noConfusion h
          · exact Except.noConfusion h
          · rcases hlv : getField lm "version" with _ | _ | b2 | n2 | lv | e2 | f2 <;>
              rw [hlv] at h
            · exact Except.noConfusion h
            · exact Except.noConfusion h
            · exact Except.noConfusion h
            · exact Except.noConfusion h
            · dsimp only at h
              by_cases hc : compareVersions mv lv ≤ 0
              · rw [if_pos hc] at h
                simp only [Except.ok.injEq, Prod.mk.injEq] at h
                have hT' : T.lookup (pathBasename path) = some lm := by
                  rw [hT, ← h.1, hl]
                rw [hT']
                dsimp only
                rw [hlv]
                dsimp only
                left
                rw [if_pos hc]
              · rw [if_neg hc] at h
                simp only [Except.ok.injEq, Prod.mk.injEq] at h
                have hT' : T.lookup (pathBasename path) = some m := by
                  rw [hT, ← h.1, storeWrite_lookup_self]
                rw [hT']
                dsimp only
                rw [hmv]
                dsimp only
                left
                rw [if_pos (le_of_eq (compareVersions_self mv))]
            · exact Except.noConfusion h
            · exact Except.noConfusion h
          · exact Except.noConfusion h
          · exact Except.noConfusion h

theorem syncMethodologyFile_error_stable {fetch : String → FetchResult}
    {store : LocalStore} {path : String} {added updated : List JSValue}
    {msg : String} {T : LocalStore}
    (h : syncMethodologyFile fetch store path added updated = .error msg)
    (hT : T.lookup (pathBasename path) = store.lookup (pathBasename path))
    (A U : List JSValue) :
    syncMethodologyFile fetch T path A U = .error msg := by
  unfold syncMethodologyFile at h ⊢
  rcases hf : fetch path with m2 | _ | om
  · rw [hf] at h
    exact h
  · rw [hf] at h
    exact absurd h (by simp)
  · rcases om with _ | m
    · rw [hf] at h
      exact h
    · rw [hf] at h
      dsimp only at h ⊢
      rcases hval : validateMethodology m with er | u
      · rw [hval] at h
        exact h
      · cases u
        rw [hval] at h
        dsimp only at h ⊢
        rcases hl : store.lookup (pathBasename path) with _ | lm
        · rw [hl] at h
          exact absurd h (by simp)
        · rw [hl] at h
          rw [hT, hl]
          dsimp only at h ⊢
          rcases hmv : getField m "version" with _ | _ | bm | nm | mv | elm | flm <;>
            rw [hmv] at h
          · exact h
          · exact h
          · exact h
          · exact h
          · rcases hlv : getField lm "version" with _ | _ | b2 | n2 | lv | e2 | f2 <;>
              rw [hlv] at h
            · exact h
            · exact h
            · exact h
            · exact h
            · dsimp only at h
              by_cases hc : compareVersions mv lv ≤ 0
              · rw [if_pos hc] at h
                exact absurd h (by simp)
              · rw [if_neg hc] at h
                exact absurd h (by simp)
            · exact h
            · exact h
          · exact h
          · exact h

theorem eligibleBasenames_cons_true {e : RemoteEntry} (he : eligible e = true)
    (rest : List RemoteEntry) :
    eligibleBasenames (e :: rest) = pathBasename e.path :: eligibleBasenames rest := by
  unfold eligibleBasenames
  simp [List.filter_cons, he]

theorem eligibleBasenames_cons_false {e : RemoteEntry} (he : eligible e = false)
    (rest : List RemoteEntry) :
    eligibleBasenames (e :: rest) = eligibleBasenames rest := by
  unfold eligibleBasenames
  simp [List.filter_cons, he]

theorem syncLoop_store_frame (fetch : String → FetchResult)
    (entries : List RemoteEntry) :
    ∀ (ls : LoopState) (b : String), b ∉ eligibleBasenames entries →
      ((syncLoop fetch entries ls).store).lookup b = ls.store.lookup b := by
  induction entries with
  | nil =>
    intro ls b hb
    rw [syncLoop_nil]
  | cons e rest ih =>
    intro ls b hb
    by_cases he : eligible e = true
    · rw [eligibleBasenames_cons_true he] at hb
      simp only [List.mem_cons, not_or] at hb
      rcases hstep : syncMethodologyFile fetch ls.store e.path ls.added ls.updated with
        msg | ⟨s', a', u'⟩
      · rw [syncLoop_cons_err he hstep, ih _ _ hb.2]
      · rw [syncLoop_cons_ok he hstep, ih _ _ hb.2]
        exact syncMethodologyFile_frame hstep hb.1
    · have he' : eligible e = false := by simpa using he
      rw [eligibleBasenames_cons_false he'] at hb
      rw [syncLoop_cons_skip he', ih _ _ hb]

theorem syncLoop_second_run_aux (fetch : String → FetchResult) :
    ∀ (entries : List RemoteEntry) (ls1 ls2 : LoopState),
      (eligibleBasenames entries).Nodup →
      (∀ b ∈ eligibleBasenames entries,
        ls2.store.lookup b = ((syncLoop fetch entries ls1).store).lookup b) →
      (syncLoop fetch entries ls2).added = ls2.added ∧
      (syncLoop fetch entries ls2).updated = ls2.updated ∧
      (syncLoop fetch entries ls2).store = ls2.store := by
  intro entries
  induction entries with
  | nil =>
    intro ls1 ls2 hnd hag
    exact ⟨rfl, rfl, rfl⟩
  | cons e rest ih =>
    intro ls1 ls2 hnd hag
    by_cases he : eligible e = true
    · have hnd' := hnd
      rw [eligibleBasenames_cons_true he, List.nodup_cons] at hnd'
      have hagbn := hag (pathBasename e.path)
        (by rw [eligibleBasenames_cons_true he]; exact List.mem_cons_self _ _)
      rcases hstep : syncMethodologyFile fetch ls1.store e.path ls1.added ls1.updated with
        msg | ⟨s1', a1', u1'⟩
      · rw [syncLoop_cons_err he hstep] at hagbn
        rw [syncLoop_store_frame fetch rest _ _ hnd'.1] at hagbn
        have hstep2 : syncMethodologyFile fetch ls2.store e.path ls2.added ls2.updated =
            .error msg :=
          syncMethodologyFile_error_stable hstep hagbn ls2.added ls2.updated
        rw [syncLoop_cons_err he hstep2]
        have hag' : ∀ b ∈ eligibleBasenames rest,
            ls2.store.lookup b =
              ((syncLoop fetch rest
                { ls1 with
                    errors := ls1.errors ++ [e.name ++ ": " ++ msg],
                    fetched := ls1.fetched ++ [e.path] }).store).lookup b := by
          intro b hb
          have h2 := hag b
            (by rw [eligibleBasenames_cons_true he]; exact List.mem_cons_of_mem _ hb)
          rw [syncLoop_cons_err he hstep] at h2
          exact h2
        exact ih _ _ hnd'.2 hag'
      · rw [syncLoop_cons_ok he hstep] at hagbn
        rw [syncLoop_store_frame fetch rest _ _ hnd'.1] at hagbn
        have hag' : ∀ b ∈ eligibleBasenames rest,
            ls2.store.lookup b =
              ((syncLoop fetch rest
                { store := s1', added := a1', updated := u1',
                    errors := ls1.errors,
                    fetched := ls1.fetched ++ [e.path] }).store).lookup b := by
          intro b hb
          have h2 := hag b
            (by rw [eligibleBasenames_cons_true he]; exact List.mem_cons_of_mem _ hb)
          rw [syncLoop_cons_ok he hstep] at h2
          exact h2
        rcases syncMethodologyFile_stable hstep hagbn ls2.added ls2.updated with
          hstep2 | hstep2
        · rw [syncLoop_cons_ok he hstep2]
          exact ih _ _ hnd'.2 hag'
        · rw [syncLoop_cons_err he hstep2]
          exact ih _ _ hnd'.2 hag'
    · have he' : eligible e = false := by simpa using he
      rw [syncLoop_cons_skip he']
      rw [eligibleBasenames_cons_false he'] at hnd
      have hag' : ∀ b ∈ eligibleBasenames rest,
          ls2.store.lookup b = ((syncLoop fetch rest ls1).store).lookup b := by
        intro b hb
        have h2 := hag b (by rw [eligibleBasenames_cons_false he']; exact hb)
        rw [syncLoop_cons_skip he'] at h2
        exact h2
      exact ih _ _ hnd hag'

/-- C5: sync is idempotent. For a remote directory listing that names each
file once (as a real directory listing does) and an unchanged remote, a
completed sync run followed by a second run yields an empty `added` and an
empty `updated` on the second run: every candidate is either invalid again,
or compares not-strictly-greater against the record the first run left
behind (equal for records the first run wrote, unchanged otherwise), and is
skipped. -/
theorem c5_sync_idempotent {fetch : String → FetchResult}
    {entries : List RemoteEntry} {store : LocalStore} {ls1 ls2 : LoopState}
    (hnd : (eligibleBasenames entries).Nodup)
    (h1 : syncFromGitHub (.dir entries) fetch store = .ok ls1)
    (h2 : syncFromGitHub (.dir entries) fetch ls1.store = .ok ls2) :
    ls2.added = [] ∧ ls2.updated = [] := by
  unfold syncFromGitHub at h1 h2
  simp only [Except.ok.injEq] at h1 h2
  have haux := syncLoop_second_run_aux fetch entries ⟨store, [], [], [], []⟩
    ⟨ls1.store, [], [], [], []⟩ hnd
    (by
      intro b hb
      dsimp only
      rw [h1])
  rw [h2] at haux
  exact ⟨haux.1, haux.2.1⟩

/-- Witness for C5: an empty catalog synced twice against a one-file remote;
the first run adds "gt-charmaz", the second run adds and updates nothing. -/
theorem c5_witness :
    (eligibleBasenames [entryGood]).Nodup ∧
    syncFromGitHub (.dir [entryGood]) fetchGood [] =
      .ok ⟨[("good.json", exGood)], [.str "gt-charmaz"], [], [],
        ["methodologies/good.json"]⟩ ∧
    syncFromGitHub (.dir [entryGood]) fetchGood [("good.json", exGood)] =
      .ok ⟨[("good.json", exGood)], [], [], [], ["methodologies/good.json"]⟩ ∧
    (⟨[("good.json", exGood)], [], [], [],
      ["methodologies/good.json"]⟩ : LoopState).added = [] ∧
    (⟨[("good.json", exGood)], [], [], [],
      ["methodologies/good.json"]⟩ : LoopState).updated = [] := by
  refine ⟨by decide, rfl, rfl, ?_, ?_⟩
  · exact (@c5_sync_idempotent fetchGood [entryGood] []
      ⟨[("good.json", exGood)], [.str "gt-charmaz"], [], [],
        ["methodologies/good.json"]⟩
      ⟨[("good.json", exGood)], [], [], [], ["methodologies/good.json"]⟩
      (by decide) rfl rfl).1
  · exact (@c5_sync_idempotent fetchGood [entryGood] []
      ⟨[("good.json", exGood)], [.str "gt-charmaz"], [], [],
        ["methodologies/good.json"]⟩
      ⟨[("good.json", exGood)], [], [], [], ["methodologies/good.json"]⟩
      (by decide) rfl rfl).2
